import Mathlib

/-!
Verification development for the pinechat ingestion/retrieval pipeline.

Python strings are embedded as `List Char` (so `len` is `List.length` and
`in` is substring containment).  Whitespace is modelled by `Char.isWhitespace`
(ASCII); all inputs appearing in the theorems use ASCII whitespace only.
-/

namespace PineChat

abbrev Str := List Char

/-- `kw s` is the character list of a string literal. -/
def kw (s : String) : Str := s.toList

/-- Python `str.strip()`: remove whitespace from both ends (right trim, then
left trim; the two orders agree). -/
def stripStr (s : Str) : Str :=
  ((s.reverse.dropWhile Char.isWhitespace).reverse).dropWhile Char.isWhitespace

/-- Python `needle in hay` (substring containment). -/
def subStr (needle : Str) : Str → Bool
  | [] => needle.isEmpty
  | c :: t => needle.isPrefixOf (c :: t) || subStr needle t

/-! ## Chunker 1: `split_text_into_chunks` (src/components/file_upload.py, lines 16-62)

Line-based accumulation: strip each line, skip empties, flush the running
buffer when adding the line would exceed `chunk_size` and the buffer is
non-empty, join buffered lines with `'\n'`. -/

structure SplitAcc where
  chunks : List Str
  cur : List Str
  curSize : ℕ
deriving DecidableEq

/-- One iteration of the `for line in lines` loop of `split_text_into_chunks`. -/
def splitStep (chunkSize : ℕ) (acc : SplitAcc) (rawLine : Str) : SplitAcc :=
  let line := stripStr rawLine
  if line = [] then acc
  else
    let lineSize := line.length
    let acc1 :=
      if chunkSize < acc.curSize + lineSize ∧ acc.cur ≠ [] then
        { chunks := acc.chunks ++ [List.intercalate ['\n'] acc.cur], cur := [], curSize := 0 }
      else acc
    { acc1 with cur := acc1.cur ++ [line], curSize := acc1.curSize + lineSize }

def split_text_into_chunks (text : Str) (chunkSize : ℕ) : List Str :=
  if text = [] then []
  else
    let fin := ((text.splitOn '\n').foldl (splitStep chunkSize) ⟨[], [], 0⟩)
    if fin.cur = [] then fin.chunks
    else fin.chunks ++ [List.intercalate ['\n'] fin.cur]

/-! ## Chunker 2: `JapaneseTextProcessor.process_text_file`
(src/utils/text_processing.py, lines 32-99)

Sentence-based accumulation with force-split of over-long sentences.  The
upstream sentence segmentation (`split_into_sentences`, built on the external
janome tokenizer) is outside the model; the function below takes its output,
the sentence list, as input and models the accumulation loop exactly. -/

structure TPChunk where
  id : String
  text : Str
  filename : String
  chunk_id : ℕ
deriving DecidableEq

def mkTPChunk (filename : String) (cid : ℕ) (text : Str) : TPChunk :=
  { id := filename ++ "_chunk_" ++ toString cid, text := text,
    filename := filename, chunk_id := cid }

/-- Slicing loop, structurally recursive on a step budget `n`; each step
consumes at least one character, so a budget of `s.length` is enough. -/
def forceSlicesGo (chunkSize : ℕ) : ℕ → Str → List Str
  | _, [] => []
  | 0, _ :: _ => []
  | n + 1, c :: rest =>
      (c :: rest.take (chunkSize - 1)) :: forceSlicesGo chunkSize n (rest.drop (chunkSize - 1))

/-- Python `sentence[i:i+chunk_size] for i in range(0, len(sentence), chunk_size)`
(for `chunk_size ≥ 1`, the only case the source can reach). -/
def forceSlices (chunkSize : ℕ) (s : Str) : List Str :=
  forceSlicesGo chunkSize s.length s

structure TPAcc where
  chunks : List TPChunk
  cur : Str
  curLen : ℕ
  chunkId : ℕ
deriving DecidableEq

/-- One iteration of the `for sentence in sentences` loop.  In the force-split
branch the source appends every slice under the *same* `chunk_id` and never
increments it (lines 64-78 of text_processing.py). -/
def tpStep (filename : String) (chunkSize : ℕ) (acc : TPAcc) (sentence : Str) : TPAcc :=
  let ssize := sentence.length
  if acc.curLen + ssize ≤ chunkSize then
    { acc with cur := acc.cur ++ sentence ++ ['\n'], curLen := acc.curLen + ssize + 1 }
  else
    let acc1 :=
      if acc.cur = [] then acc
      else
        { chunks := acc.chunks ++ [mkTPChunk filename acc.chunkId (stripStr acc.cur)],
          cur := [], curLen := 0, chunkId := acc.chunkId + 1 }
    if chunkSize < ssize then
      { acc1 with
        chunks := acc1.chunks ++ (forceSlices chunkSize sentence).map (mkTPChunk filename acc1.chunkId),
        cur := [], curLen := 0 }
    else
      { acc1 with cur := sentence ++ ['\n'], curLen := ssize + 1 }

def process_text_file (filename : String) (chunkSize : ℕ) (sentences : List Str) : List TPChunk :=
  let fin := sentences.foldl (tpStep filename chunkSize) ⟨[], [], 0, 0⟩
  if fin.cur = [] then fin.chunks
  else fin.chunks ++ [mkTPChunk filename fin.chunkId (stripStr fin.cur)]

/-! ## Classifier: `analyze_text_category` (src/components/file_upload.py, lines 155-337)

Keyword tables transcribed verbatim from the source (duplicate entries kept:
Python counts one hit per list element). -/

def timetable_keywords : List Str :=
  [kw "時刻表", kw "発車", kw "到着", kw "上り", kw "下り", kw "平日", kw "土休日", kw "号",
   kw "始発", kw "終電", kw "運行", kw "ダイヤ", kw "列車", kw "電車", kw "快速", kw "普通",
   kw "各駅停車", kw "区間", kw "方面", kw "行き", kw "駅", kw "バス停", kw "停留所"]

def history_culture_keywords : List Str :=
  [kw "歴史", kw "史跡", kw "文化財", kw "重要文化財", kw "国宝", kw "遺跡",
   kw "城", kw "神社", kw "寺院", kw "仏閣", kw "古墳", kw "博物館", kw "資料館",
   kw "伝統", kw "文化", kw "祭り", kw "行事", kw "風習", kw "伝説", kw "物語",
   kw "偉人", kw "人物", kw "発祥", kw "起源", kw "由来", kw "地名", kw "街道",
   kw "市制", kw "施行", kw "周年", kw "記念", kw "制定", kw "答申", kw "告示",
   kw "和歌", kw "歌人", kw "伝説", kw "逸話", kw "故事", kw "由来", kw "歴史的",
   kw "文化的", kw "伝統的", kw "風習", kw "習俗", kw "慣習", kw "風俗", kw "民俗"]

def kws_b_gaiyo : List Str :=
  [kw "物件", kw "マンション", kw "アパート", kw "一戸建て", kw "土地", kw "駐車場",
   kw "エリア", kw "地区", kw "地域", kw "区画", kw "街区", kw "敷地", kw "建物",
   kw "構造", kw "階数", kw "築年数", kw "新築", kw "中古", kw "リフォーム"]

def kws_b_kakaku : List Str :=
  [kw "価格", kw "費用", kw "家賃", kw "管理費", kw "敷金", kw "礼金", kw "仲介手数料",
   kw "共益費", kw "光熱費", kw "水道代", kw "電気代", kw "ガス代", kw "保険料",
   kw "税金", kw "固定資産税", kw "都市計画税", kw "修繕積立金", kw "更新料"]

def kws_b_madori : List Str :=
  [kw "間取り", kw "LDK", kw "DK", kw "K", kw "設備", kw "家具", kw "家電", kw "エアコン",
   kw "バス", kw "トイレ", kw "キッチン", kw "洗面所", kw "収納", kw "クローゼット",
   kw "ベランダ", kw "バルコニー", kw "ロフト", kw "地下室", kw "屋上", kw "庭",
   kw "駐車場", kw "駐輪場", kw "宅配ボックス", kw "インターホン", kw "セキュリティ"]

def kws_b_keiyaku : List Str :=
  [kw "契約", kw "入居", kw "退去", kw "更新", kw "手続き", kw "書類", kw "保証人",
   kw "連帯保証人", kw "審査", kw "内見", kw "申込", kw "入居審査", kw "契約書",
   kw "重要事項説明", kw "火災保険", kw "家財保険", kw "原状回復", kw "明渡し"]

def kws_c_gaiyo : List Str :=
  [kw "エリア", kw "地区", kw "地域", kw "区画", kw "街区", kw "町", kw "丁目",
   kw "住宅地", kw "商業地", kw "工業地", kw "文教地区", kw "オフィス街",
   kw "再開発", kw "都市計画", kw "用途地域", kw "容積率", kw "建蔽率"]

/-- 交通アクセス keywords: the literal list plus `timetable_keywords` appended
(`+ timetable_keywords` in the source, line 246). -/
def kws_c_kotsu : List Str :=
  [kw "JR", kw "線", kw "駅", kw "所要時間", kw "分", kw "直通", kw "運転", kw "急行", kw "特急",
   kw "バス", kw "車", kw "アクセス", kw "交通", kw "路線", kw "新宿", kw "池袋", kw "渋谷",
   kw "横浜", kw "大宮", kw "川越", kw "本川越", kw "新木場", kw "八王子", kw "海老名",
   kw "元町", kw "中華街", kw "新横浜", kw "Fライナー", kw "小江戸号", kw "バス停",
   kw "高速道路", kw "IC", kw "JCT", kw "空港", kw "港", kw "フェリー", kw "タクシー"]
  ++ timetable_keywords

def kws_c_shizen : List Str :=
  [kw "公園", kw "緑地", kw "庭園", kw "植物園", kw "森林", kw "山", kw "川", kw "湖",
   kw "海", kw "海岸", kw "砂浜", kw "岬", kw "渓谷", kw "滝", kw "温泉", kw "湧水",
   kw "自然", kw "環境", kw "生態系", kw "動植物", kw "野鳥", kw "昆虫", kw "花",
   kw "桜", kw "紅葉", kw "四季", kw "気候", kw "天気", kw "風", kw "光", kw "空気"]

def kws_c_kanko : List Str :=
  [kw "観光", kw "観光地", kw "名所", kw "旧跡", kw "見所", kw "スポット",
   kw "レジャー", kw "遊園地", kw "水族館", kw "動物園", kw "美術館", kw "博物館",
   kw "ショッピング", kw "商業施設", kw "モール", kw "商店街", kw "市場",
   kw "グルメ", kw "飲食店", kw "レストラン", kw "カフェ", kw "居酒屋", kw "バー",
   kw "特産品", kw "名物", kw "郷土料理", kw "スイーツ", kw "お土産", kw "物産"]

/-- `sum(1 for keyword in keywords if keyword in line)`. -/
def countKw (keywords : List Str) (line : Str) : ℕ :=
  keywords.countP (fun k => subStr k line)

/-- Regex `^\d{1,2}:\d{2}$` under `re.search` (anchored, so a full match of the
stripped line). -/
def patTime : Str → Bool
  | [a, c, d, e] => a.isDigit && c == ':' && d.isDigit && e.isDigit
  | [a, b, c, d, e] => a.isDigit && b.isDigit && c == ':' && d.isDigit && e.isDigit
  | _ => false

/-- Regex `^\d+号$` under `re.search`: one or more digits followed by 号,
spanning the whole line. -/
def patTrainNo (line : Str) : Bool :=
  match line.reverse with
  | g :: ds => g == '号' && !ds.isEmpty && ds.all Char.isDigit
  | [] => false

/-- Number of `timetable_patterns` that `re.search` finds in the line
(lines 268-274 of the source). -/
def patternCount (line : Str) : ℕ :=
  (if patTime line then 1 else 0) +
  (if subStr (kw "発車") line || subStr (kw "到着") line then 1 else 0) +
  (if subStr (kw "上り") line || subStr (kw "下り") line then 1 else 0) +
  (if subStr (kw "平日") line || subStr (kw "土休日") line then 1 else 0) +
  (if patTrainNo line then 1 else 0)

/-- Accumulated classifier state: `category_scores`, `subcategory_scores` and
the `is_timetable` flag. -/
structure ClsState where
  bukken : ℕ        -- category_scores["物件概要"]
  chiiki : ℕ        -- category_scores["地域特性・街のプロフィール"]
  b_gaiyo : ℕ       -- subcategory_scores["物件概要"]["概要・エリア区分"]
  b_kakaku : ℕ      -- ..["価格・費用"]
  b_madori : ℕ      -- ..["間取り・設備"]
  b_keiyaku : ℕ     -- ..["契約・手続き"]
  c_gaiyo : ℕ       -- subcategory_scores["地域特性・街のプロフィール"]["概要・エリア区分"]
  c_kotsu : ℕ       -- ..["交通アクセス"]
  c_rekishi : ℕ     -- ..["街の歴史・地域史"]
  c_shizen : ℕ      -- ..["自然・環境"]
  c_kanko : ℕ       -- ..["観光・グルメ"]
  is_timetable : Bool
deriving DecidableEq

def initClsState : ClsState := ⟨0, 0, 0, 0, 0, 0, 0, 0, 0, 0, 0, false⟩

/-- The generic keyword-scoring loop (lines 299-307): for every
(main, sub) pair add `count × weight` to both scores, weight 2 exactly for
街の歴史・地域史.  (The source guards each addition with `if keyword_count > 0`;
adding 0 is the identity, so the guard is dropped.) -/
def genericStep (st : ClsState) (line : Str) : ClsState :=
  let n1 := countKw kws_b_gaiyo line
  let n2 := countKw kws_b_kakaku line
  let n3 := countKw kws_b_madori line
  let n4 := countKw kws_b_keiyaku line
  let m1 := countKw kws_c_gaiyo line
  let m2 := countKw kws_c_kotsu line
  let m3 := countKw history_culture_keywords line
  let m4 := countKw kws_c_shizen line
  let m5 := countKw kws_c_kanko line
  { st with
    bukken := st.bukken + n1 + n2 + n3 + n4,
    chiiki := st.chiiki + m1 + m2 + m3 * 2 + m4 + m5,
    b_gaiyo := st.b_gaiyo + n1,
    b_kakaku := st.b_kakaku + n2,
    b_madori := st.b_madori + n3,
    b_keiyaku := st.b_keiyaku + n4,
    c_gaiyo := st.c_gaiyo + m1,
    c_kotsu := st.c_kotsu + m2,
    c_rekishi := st.c_rekishi + m3 * 2,
    c_shizen := st.c_shizen + m4,
    c_kanko := st.c_kanko + m5 }

/-- One iteration of the per-line loop (lines 277-307): history/culture
override first (weight 2, `continue`), then the timetable check (a line with a
timetable keyword is consumed whether or not two patterns match), then generic
scoring. -/
def classifyLine (st : ClsState) (line : Str) : ClsState :=
  let hc := countKw history_culture_keywords line
  if 0 < hc then
    { st with chiiki := st.chiiki + hc * 2, c_rekishi := st.c_rekishi + hc * 2 }
  else if timetable_keywords.any (fun k => subStr k line) then
    if 2 ≤ patternCount line then
      { st with is_timetable := true, chiiki := st.chiiki + 3, c_kotsu := st.c_kotsu + 3 }
    else st
  else genericStep st line

/-- `text.split('\n')`, each line stripped, blank lines skipped. -/
def clsLines (text : Str) : List Str :=
  ((text.splitOn '\n').map stripStr).filter (fun l => l ≠ [])

/-- State after the per-line loop. -/
def rawClsState (text : Str) : ClsState :=
  (clsLines text).foldl classifyLine initClsState

/-- Python `max(items, key=lambda x: x[1])`: first maximal element in
iteration (insertion) order. -/
def argmaxFirst (x : String × ℕ) (rest : List (String × ℕ)) : String × ℕ :=
  rest.foldl (fun best p => if best.2 < p.2 then p else best) x

structure ClassResult where
  main_category : String
  sub_category : String
  confidence_score : ℚ
deriving DecidableEq

/-- The scoring-based branch (lines 321-337): argmax over main categories,
then over the chosen main's subcategories, confidence = selected score over
total (0 when the total is 0). -/
def scoringBranch (st : ClsState) : ClassResult :=
  let mainPair := argmaxFirst ("物件概要", st.bukken)
    [("地域特性・街のプロフィール", st.chiiki)]
  let subPair :=
    if mainPair.1 = "物件概要" then
      argmaxFirst ("概要・エリア区分", st.b_gaiyo)
        [("価格・費用", st.b_kakaku), ("間取り・設備", st.b_madori),
         ("契約・手続き", st.b_keiyaku)]
    else
      argmaxFirst ("概要・エリア区分", st.c_gaiyo)
        [("交通アクセス", st.c_kotsu), ("街の歴史・地域史", st.c_rekishi),
         ("自然・環境", st.c_shizen), ("観光・グルメ", st.c_kanko)]
  let total := st.bukken + st.chiiki
  let conf : ℚ := if total = 0 then 0 else (mainPair.2 : ℚ) / (total : ℚ)
  ⟨mainPair.1, subPair.1, conf⟩

/-- Post-processing retraction (lines 309-311): the structural override is
kept unless the history score *strictly* exceeds the transport score. -/
def finalIsTimetable (text : Str) : Bool :=
  let st := rawClsState text
  st.is_timetable && !(st.c_kotsu < st.c_rekishi)

def analyze_text_category (text : Str) : ClassResult :=
  if finalIsTimetable text then
    ⟨"地域特性・街のプロフィール", "交通アクセス", mkRat 9 10⟩
  else
    scoringBranch (rawClsState text)

/-! ## Settings (src/config/settings.py) -/

def CHUNK_SIZE : ℕ := 500
def BATCH_SIZE : ℕ := 100
def DEFAULT_TOP_K : ℕ := 10
def SIMILARITY_THRESHOLD : ℚ := mkRat 7 10

/-! ## Retrieval: `LangChainService.get_relevant_context`
(src/services/langchain_service.py, lines 51-109)

The vector store returns `2 × top_k` scored documents in descending score
order; the function filters by `score >= SIMILARITY_THRESHOLD`, truncates to
`top_k`, and falls back to the unfiltered head when the filter removed
everything.  Documents are (content, score) pairs. -/

def get_relevant_context (docs : List (String × ℚ)) (topK : ℕ) : List (String × ℚ) :=
  let filtered := (docs.filter (fun d => SIMILARITY_THRESHOLD ≤ d.2)).take topK
  if filtered.isEmpty && !docs.isEmpty then docs.take topK else filtered

/-! ## Retrieval: `PineconeService.query`
(src/services/pinecone_service.py, lines 200-255)

The index's response to the `top_k * 2` request is the `candidates` input.
The function has no threshold validation and no fallback: it filters,
truncates, and returns the result dictionary. -/

structure QueryOutput where
  matchList : List (String × ℚ)   -- the "matches" entry (a Lean keyword)
  total_matches : ℕ
  filtered_matches : ℕ
deriving DecidableEq

def pinecone_query (candidates : List (String × ℚ)) (topK : ℕ) (threshold : ℚ) :
    QueryOutput :=
  let filtered := (candidates.filter (fun m => threshold ≤ m.2)).take topK
  ⟨filtered, candidates.length, filtered.length⟩

/-! ## Ingestion: `PineconeService.upload_chunks`
(src/services/pinecone_service.py, lines 112-198)

A chunk dictionary carries `id`, `text`, optionally top-level `filename` /
`chunk_id` keys, and a nested `metadata` dictionary (absent keys are `none`).
The embedding service is an oracle `ℕ → PChunk → Option (List ℚ)`: the result
of the n-th (0-based) `get_embedding` call for a given chunk; `none` means
that call failed after the gateway's own retries.  The per-batch upsert is
assumed to succeed (its own retry loop is not the subject of the claims).
Since the Python recursion has no bound, the model is fuel-indexed: `none`
means the call has not completed within `fuel` nested retry levels. -/

inductive MetaVal
  | s : String → MetaVal
  | q : ℚ → MetaVal
  | i : Int → MetaVal
deriving DecidableEq

structure PMeta where
  main_category : Option String := none
  sub_category : Option String := none
  confidence_score : Option ℚ := none
  city : Option String := none
  created_date : Option String := none
  upload_date : Option String := none
  source : Option String := none
  facility_name : Option String := none
  latitude : Option ℚ := none
  longitude : Option ℚ := none
  walking_distance : Option Int := none
  walking_minutes : Option Int := none
  straight_distance : Option Int := none
deriving DecidableEq

structure PChunk where
  id : String
  text : String
  filenameTop : Option String := none
  chunkIdTop : Option String := none
  meta : PMeta := {}
deriving DecidableEq

/-- The metadata dictionary built for the upsert (lines 138-155), as an
ordered key/value list.  Note there is no `confidence_score` key: the source
never copies it. -/
def mkUploadMetadata (c : PChunk) : List (String × MetaVal) :=
  [("text", .s c.text),
   ("filename", .s (c.filenameTop.getD "")),
   ("chunk_id", .s (c.chunkIdTop.getD "")),
   ("main_category", .s (c.meta.main_category.getD "")),
   ("sub_category", .s (c.meta.sub_category.getD "")),
   ("city", .s (c.meta.city.getD "")),
   ("created_date", .s (c.meta.created_date.getD "")),
   ("upload_date", .s (c.meta.upload_date.getD "")),
   ("source", .s (c.meta.source.getD "")),
   ("facility_name", .s (c.meta.facility_name.getD "")),
   ("latitude", .q (c.meta.latitude.getD 0)),
   ("longitude", .q (c.meta.longitude.getD 0)),
   ("walking_distance", .i (c.meta.walking_distance.getD 0)),
   ("walking_minutes", .i (c.meta.walking_minutes.getD 0)),
   ("straight_distance", .i (c.meta.straight_distance.getD 0))]

structure UpsertEntry where
  id : String
  values : List ℚ
  metadata : List (String × MetaVal)
deriving DecidableEq

/-- Batch partitioning loop, structurally recursive on a step budget. -/
def toBatchesGo (bs : ℕ) : ℕ → List PChunk → List (List PChunk)
  | _, [] => []
  | 0, _ :: _ => []
  | n + 1, c :: rest => (c :: rest.take (bs - 1)) :: toBatchesGo bs n (rest.drop (bs - 1))

/-- `chunks[i:i + batch_size]` partitioning (for `batch_size ≥ 1`). -/
def toBatches (bs : ℕ) (l : List PChunk) : List (List PChunk) :=
  toBatchesGo bs l.length l

/-- The per-batch embedding loop (lines 129-168): successfully embedded
chunks become upsert entries in order, failures are collected into
`retry_chunks` in order; `counts` tracks how many embedding attempts each
chunk id has consumed so far. -/
def embedBatch (oracle : ℕ → PChunk → Option (List ℚ)) :
    List PChunk → (String → ℕ) → List UpsertEntry × List PChunk × (String → ℕ)
  | [], counts => ([], [], counts)
  | c :: rest, counts =>
    let n := counts c.id
    let counts1 := Function.update counts c.id (n + 1)
    let r := embedBatch oracle rest counts1
    match oracle n c with
    | some v => (⟨c.id, v, mkUploadMetadata c⟩ :: r.1, r.2.1, r.2.2)
    | none => (r.1, c :: r.2.1, r.2.2)

/-- The `for i in range(...)` batch loop body, parameterised by the handler
invoked on a non-empty retry set (the recursive re-submission). -/
def uploadGo (oracle : ℕ → PChunk → Option (List ℚ))
    (retryHandler : List PChunk → (String → ℕ) →
      Option (List UpsertEntry × (String → ℕ))) :
    List (List PChunk) → (String → ℕ) →
    Option (List UpsertEntry × (String → ℕ))
  | [], counts => some ([], counts)
  | b :: rest, counts =>
    let r := embedBatch oracle b counts
    match (if r.2.1.isEmpty then some (([] : List UpsertEntry), r.2.2)
           else retryHandler r.2.1 r.2.2) with
    | none => none
    | some (res1, counts2) =>
      match uploadGo oracle retryHandler rest counts2 with
      | none => none
      | some (res2, counts3) => some (r.1 ++ res1 ++ res2, counts3)

/-- The batch loop of `upload_chunks`.  After each batch's upsert, a
non-empty `retry_chunks` is immediately re-submitted through the whole
procedure (line 193) — that is the only place `fuel` decreases; at fuel 0 a
pending re-submission makes the run unfinished (`none`). -/
def uploadBatches (oracle : ℕ → PChunk → Option (List ℚ)) (bs : ℕ) :
    ℕ → List (List PChunk) → (String → ℕ) →
    Option (List UpsertEntry × (String → ℕ))
  | 0, batches, counts => uploadGo oracle (fun _ _ => none) batches counts
  | fuel + 1, batches, counts =>
      uploadGo oracle
        (fun retry cts => uploadBatches oracle bs fuel (toBatches bs retry) cts)
        batches counts

/-- `upload_chunks(chunks, namespace, batch_size)`: the sequence of upsert
entries written to the index, or `none` when the recursion has not finished
within `fuel` retry levels. -/
def upload_chunks (oracle : ℕ → PChunk → Option (List ℚ)) (bs fuel : ℕ)
    (chunks : List PChunk) : Option (List UpsertEntry) :=
  if chunks.isEmpty then some []
  else (uploadBatches oracle bs fuel (toBatches bs chunks) (fun _ => 0)).map Prod.fst

/-- The ids upserted by an `upload_chunks` run, in upsert order. -/
def uploadedIds (oracle : ℕ → PChunk → Option (List ℚ)) (bs fuel : ℕ)
    (chunks : List PChunk) : Option (List String) :=
  (upload_chunks oracle bs fuel chunks).map (List.map UpsertEntry.id)

/-! ## Auxiliary definitions used by the theorems -/

/-- A line in which no keyword of any table occurs and no timetable keyword
occurs: such a line contributes nothing in any branch of the per-line loop. -/
def lineNoKeyword (l : Str) : Bool :=
  countKw history_culture_keywords l == 0 &&
  !(timetable_keywords.any (fun k => subStr k l)) &&
  countKw kws_b_gaiyo l == 0 && countKw kws_b_kakaku l == 0 &&
  countKw kws_b_madori l == 0 && countKw kws_b_keiyaku l == 0 &&
  countKw kws_c_gaiyo l == 0 && countKw kws_c_kotsu l == 0 &&
  countKw kws_c_shizen l == 0 && countKw kws_c_kanko l == 0

/-- Loop invariant of the sentence-accumulation loop of
`JapaneseTextProcessor.process_text_file`: the tracked length is the buffer's
length, a non-empty buffer ends in `'\n'` and fits in `chunkSize + 1`
characters, and every emitted chunk fits in `chunkSize`. -/
def TPInv (cs : ℕ) (acc : TPAcc) : Prop :=
  acc.curLen = acc.cur.length ∧
  (acc.cur = [] ∨ ∃ s, acc.cur = s ++ ['\n'] ∧ acc.cur.length ≤ cs + 1) ∧
  ∀ ch ∈ acc.chunks, ch.text.length ≤ cs

/-- An embedding service that fails every attempt for every chunk. -/
def failOracle : ℕ → PChunk → Option (List ℚ) := fun _ _ => none

/-- An embedding service that fails the first two attempts for every chunk
and succeeds from the third attempt on. -/
def thirdTryOracle : ℕ → PChunk → Option (List ℚ) :=
  fun n _ => if 2 ≤ n then some [1] else none

/-- An embedding service for which chunk "a" fails exactly its first attempt
and everything else succeeds. -/
def aOnceFailOracle : ℕ → PChunk → Option (List ℚ) :=
  fun n c => if c.id = "a" ∧ n = 0 then none else some [1]

def badChunk : PChunk := { id := "bad", text := "x" }
def chunkA : PChunk := { id := "a", text := "ta" }
def chunkB : PChunk := { id := "b", text := "tb" }

/-- A pipeline chunk as produced by `process_text_file` in file_upload.py:
`filename` and `chunk_id` live only inside the nested metadata (not as
top-level keys), and a confidence score is present in the chunk metadata. -/
def sampleChunk : PChunk :=
  { id := "doc.txt_20240101000000_0", text := "本文",
    filenameTop := none, chunkIdTop := none,
    meta := { main_category := some "物件概要",
              sub_category := some "価格・費用",
              confidence_score := some (mkRat 9 10),
              city := some "川越市", source := some "web" } }

/-! # Helper lemmas -/

lemma length_dropWhile_le (p : Char → Bool) (l : Str) :
    (l.dropWhile p).length ≤ l.length := by
  induction l with
  | nil => simp
  | cons c t ih =>
    rw [List.dropWhile_cons]
    split
    · exact ih.trans (Nat.le_succ _)
    · simp

lemma stripStr_length_le (s : Str) : (stripStr s).length ≤ s.length := by
  unfold stripStr
  calc ((s.reverse.dropWhile Char.isWhitespace).reverse.dropWhile Char.isWhitespace).length
      ≤ (s.reverse.dropWhile Char.isWhitespace).reverse.length :=
        length_dropWhile_le _ _
    _ = (s.reverse.dropWhile Char.isWhitespace).length := List.length_reverse _
    _ ≤ s.reverse.length := length_dropWhile_le _ _
    _ = s.length := List.length_reverse _

lemma stripStr_append_newline (s : Str) : stripStr (s ++ ['\n']) = stripStr s := by
  unfold stripStr
  rw [List.reverse_append]
  simp only [List.reverse_cons, List.reverse_nil, List.nil_append, List.cons_append,
    List.dropWhile_cons]
  have hnl : '\n'.isWhitespace = true := rfl
  rw [if_pos hnl]

lemma forceSlicesGo_length_le (cs : ℕ) (hcs : 0 < cs) :
    ∀ (n : ℕ) (s : Str), ∀ t ∈ forceSlicesGo cs n s, t.length ≤ cs := by
  intro n
  induction n with
  | zero =>
    intro s t ht
    match s with
    | [] => simp [forceSlicesGo] at ht
    | _ :: _ => simp [forceSlicesGo] at ht
  | succ n ih =>
    intro s t ht
    match s with
    | [] => simp [forceSlicesGo] at ht
    | c :: rest =>
      rw [forceSlicesGo] at ht
      rcases List.mem_cons.mp ht with h | h
      · subst h
        simp only [List.length_cons, List.length_take]
        omega
      · exact ih _ t h

lemma forceSlices_length_le (cs : ℕ) (hcs : 0 < cs) (s : Str) :
    ∀ t ∈ forceSlices cs s, t.length ≤ cs :=
  forceSlicesGo_length_le cs hcs s.length s

lemma tpStep_inv (f : String) (cs : ℕ) (hcs : 0 < cs) (acc : TPAcc) (sentence : Str)
    (hinv : TPInv cs acc) : TPInv cs (tpStep f cs acc sentence) := by
  obtain ⟨hlen, hcur, hchunks⟩ := hinv
  unfold TPInv
  dsimp only [tpStep]
  by_cases hfit : acc.curLen + sentence.length ≤ cs
  · -- the sentence fits: append it (plus '\n') to the buffer
    rw [if_pos hfit]
    refine ⟨?_, Or.inr ⟨acc.cur ++ sentence, by simp, ?_⟩, hchunks⟩
    · simp only [List.length_append, List.length_cons, List.length_nil, hlen]
    · simp only [List.length_append, List.length_cons, List.length_nil]
      rw [hlen] at hfit
      omega
  · rw [if_neg hfit]
    by_cases hlong : cs < sentence.length
    · rw [if_pos hlong]
      by_cases hemp : acc.cur = []
      · -- empty buffer, over-long sentence: force-split only
        rw [if_pos hemp]
        refine ⟨rfl, Or.inl rfl, ?_⟩
        intro ch hch
        rcases List.mem_append.mp hch with h | h
        · exact hchunks ch h
        · obtain ⟨t, ht, rfl⟩ := List.mem_map.mp h
          exact forceSlices_length_le cs hcs sentence t ht
      · -- flush the buffer, then force-split the over-long sentence
        rw [if_neg hemp]
        rcases hcur with hnil | ⟨s, hshape, hlenb⟩
        · exact absurd hnil hemp
        refine ⟨rfl, Or.inl rfl, ?_⟩
        intro ch hch
        rcases List.mem_append.mp hch with h | h
        · rcases List.mem_append.mp h with h1 | h1
          · exact hchunks ch h1
          · simp only [List.mem_singleton] at h1
            subst h1
            simp only [mkTPChunk]
            rw [hshape, stripStr_append_newline]
            have hb := stripStr_length_le s
            rw [hshape] at hlenb
            simp only [List.length_append, List.length_cons, List.length_nil] at hlenb
            omega
        · obtain ⟨t, ht, rfl⟩ := List.mem_map.mp h
          exact forceSlices_length_le cs hcs sentence t ht
    · rw [if_neg hlong]
      by_cases hemp : acc.cur = []
      · -- empty buffer but the sentence neither fits nor is over-long: impossible
        exfalso
        rw [hemp] at hlen
        simp only [List.length_nil] at hlen
        omega
      · -- flush the buffer, then start a fresh one holding the sentence
        rw [if_neg hemp]
        rcases hcur with hnil | ⟨s, hshape, hlenb⟩
        · exact absurd hnil hemp
        refine ⟨?_, Or.inr ⟨sentence, rfl, ?_⟩, ?_⟩
        · simp
        · simp only [List.length_append, List.length_cons, List.length_nil]
          omega
        · intro ch hch
          rcases List.mem_append.mp hch with h | h
          · exact hchunks ch h
          · simp only [List.mem_singleton] at h
            subst h
            simp only [mkTPChunk]
            rw [hshape, stripStr_append_newline]
            have hb := stripStr_length_le s
            rw [hshape] at hlenb
            simp only [List.length_append, List.length_cons, List.length_nil] at hlenb
            omega

lemma foldl_tpStep_inv (f : String) (cs : ℕ) (hcs : 0 < cs) :
    ∀ (sentences : List Str) (acc : TPAcc), TPInv cs acc →
      TPInv cs (sentences.foldl (tpStep f cs) acc)
  | [], _, h => h
  | s :: rest, acc, h =>
      foldl_tpStep_inv f cs hcs rest (tpStep f cs acc s) (tpStep_inv f cs hcs acc s h)

/-! # Claims -/

/-- The fallback of `get_relevant_context` (langchain_service.py, lines
78-80): when threshold filtering removes every candidate of a non-empty
candidate list, the first `top_k` unfiltered candidates are returned, in the
index's descending score order. -/
lemma get_relevant_context_fallback (docs : List (String × ℚ)) (topK : ℕ)
    (hf : docs.filter (fun d => SIMILARITY_THRESHOLD ≤ d.2) = [])
    (hne : docs ≠ [])
    (hs : List.Pairwise (fun a b : String × ℚ => b.2 ≤ a.2) docs) :
    get_relevant_context docs topK = docs.take topK ∧
      List.Pairwise (fun a b : String × ℚ => b.2 ≤ a.2)
        (get_relevant_context docs topK) := by
  have h1 : get_relevant_context docs topK = docs.take topK := by
    unfold get_relevant_context
    rw [hf]
    simp [List.isEmpty_eq_false.mpr hne]
  refine ⟨h1, ?_⟩
  rw [h1]
  exact List.Pairwise.sublist (List.take_sublist topK docs) hs

/-- C1 counterexample: the other cited retrieval operation,
`PineconeService.query`, has no fallback: with a single candidate of score
1/2 and the configured threshold 0.7, filtering removes every candidate of
the non-empty candidate set and the returned result has an *empty* match
list — exactly the outcome the claim rules out. -/
theorem c1_pinecone_no_fallback_cex :
    ([(("a", mkRat 1 2) : String × ℚ)] ≠ []) ∧
    pinecone_query [("a", mkRat 1 2)] DEFAULT_TOP_K SIMILARITY_THRESHOLD =
      { matchList := [], total_matches := 1, filtered_matches := 0 } := by
  constructor
  · decide
  · decide

/-- C1 amended: only the langchain retrieval path implements the fallback —
`get_relevant_context` returns the top `top_k` of the unfiltered,
descending-ordered candidates when filtering empties a non-empty candidate
set; the other retrieval operation, `PineconeService.query`, has no fallback
and returns a result with an empty match list in the same situation. -/
theorem c1_retrieval_fallback (docs candidates : List (String × ℚ)) (topK : ℕ)
    (hf : docs.filter (fun d => SIMILARITY_THRESHOLD ≤ d.2) = [])
    (hne : docs ≠ [])
    (hs : List.Pairwise (fun a b : String × ℚ => b.2 ≤ a.2) docs)
    (hcf : candidates.filter (fun m => SIMILARITY_THRESHOLD ≤ m.2) = []) :
    (get_relevant_context docs topK = docs.take topK ∧
      List.Pairwise (fun a b : String × ℚ => b.2 ≤ a.2)
        (get_relevant_context docs topK)) ∧
    pinecone_query candidates topK SIMILARITY_THRESHOLD =
      { matchList := [], total_matches := candidates.length, filtered_matches := 0 } := by
  refine ⟨get_relevant_context_fallback docs topK hf hne hs, ?_⟩
  unfold pinecone_query
  rw [hcf]
  simp

theorem c1_retrieval_fallback_witness :
    ([(("d1", mkRat 1 2) : String × ℚ), ("d2", mkRat 1 4)].filter
        (fun d => SIMILARITY_THRESHOLD ≤ d.2) = [] ∧
      ([(("d1", mkRat 1 2) : String × ℚ), ("d2", mkRat 1 4)] ≠ []) ∧
      List.Pairwise (fun a b : String × ℚ => b.2 ≤ a.2)
        [(("d1", mkRat 1 2) : String × ℚ), ("d2", mkRat 1 4)] ∧
      [(("c1", mkRat 1 2) : String × ℚ)].filter
        (fun m => SIMILARITY_THRESHOLD ≤ m.2) = []) ∧
    ((get_relevant_context [(("d1", mkRat 1 2) : String × ℚ), ("d2", mkRat 1 4)] 1 =
        [(("d1", mkRat 1 2) : String × ℚ), ("d2", mkRat 1 4)].take 1 ∧
      List.Pairwise (fun a b : String × ℚ => b.2 ≤ a.2)
        (get_relevant_context [(("d1", mkRat 1 2) : String × ℚ), ("d2", mkRat 1 4)] 1)) ∧
    pinecone_query [(("c1", mkRat 1 2) : String × ℚ)] 1 SIMILARITY_THRESHOLD =
      { matchList := [],
        total_matches := [(("c1", mkRat 1 2) : String × ℚ)].length,
        filtered_matches := 0 }) :=
  ⟨⟨by decide, by decide, by decide, by decide⟩,
    c1_retrieval_fallback _ [(("c1", mkRat 1 2) : String × ℚ)] 1
      (by decide) (by decide) (by decide) (by decide)⟩

/-- C8 counterexample: `query` with threshold 1.01 is not rejected: with one
candidate of score 0.9 it returns the result dictionary with an empty match
list (1 raw candidate, 0 kept) instead of failing with a `ValidationError`
(no validation exists in the source). -/
theorem c8_no_threshold_validation_cex :
    pinecone_query [("a", mkRat 9 10)] DEFAULT_TOP_K (mkRat 101 100) =
      { matchList := [], total_matches := 1, filtered_matches := 0 } := by
  decide

/-- C8 amended: `query` performs no threshold validation; with threshold 1.01
it queries the index as usual and, since every similarity score is at most 1,
filtering removes every candidate and an empty result is returned. -/
theorem c8_overthreshold_returns_empty (candidates : List (String × ℚ)) (topK : ℕ)
    (h : ∀ m ∈ candidates, m.2 ≤ 1) :
    pinecone_query candidates topK (mkRat 101 100) =
      { matchList := [], total_matches := candidates.length, filtered_matches := 0 } := by
  unfold pinecone_query
  have hf : candidates.filter (fun m => (mkRat 101 100 : ℚ) ≤ m.2) = [] := by
    rw [List.filter_eq_nil_iff]
    intro m hm
    simp only [decide_eq_true_eq, not_le]
    calc m.2 ≤ 1 := h m hm
      _ < mkRat 101 100 := by norm_num [mkRat, Rat.normalize]
  rw [hf]
  simp

theorem c8_overthreshold_returns_empty_witness :
    (∀ m ∈ [(("a", mkRat 9 10) : String × ℚ), ("b", 1)], m.2 ≤ 1) ∧
    pinecone_query [(("a", mkRat 9 10) : String × ℚ), ("b", 1)] 3 (mkRat 101 100) =
      { matchList := [], total_matches := 2, filtered_matches := 0 } :=
  ⟨by decide, c8_overthreshold_returns_empty _ 3 (by decide)⟩

/-- C9 counterexample: the metadata record upserted for a chunk has no
`confidence_score` key at all, even when the chunk's own metadata carries a
confidence score. -/
theorem c9_no_confidence_key_cex :
    sampleChunk.meta.confidence_score = some (mkRat 9 10) ∧
      ¬ ("confidence_score" ∈ (mkUploadMetadata sampleChunk).map Prod.fst) := by
  constructor
  · rfl
  · decide

/-- C9 amended: the upserted metadata record always contains exactly the
fifteen source keys — including `chunk_id`, `filename`, `main_category` and
`sub_category` (defaulting to empty strings) — and never a `confidence_score`
key: the classification confidence is not copied into the index. -/
theorem c9_upsert_metadata_keys (c : PChunk) :
    (mkUploadMetadata c).map Prod.fst =
      ["text", "filename", "chunk_id", "main_category", "sub_category", "city",
       "created_date", "upload_date", "source", "facility_name", "latitude",
       "longitude", "walking_distance", "walking_minutes", "straight_distance"] ∧
    "chunk_id" ∈ (mkUploadMetadata c).map Prod.fst ∧
    "filename" ∈ (mkUploadMetadata c).map Prod.fst ∧
    "main_category" ∈ (mkUploadMetadata c).map Prod.fst ∧
    "sub_category" ∈ (mkUploadMetadata c).map Prod.fst ∧
    ¬ ("confidence_score" ∈ (mkUploadMetadata c).map Prod.fst) := by
  have hkeys : (mkUploadMetadata c).map Prod.fst =
      ["text", "filename", "chunk_id", "main_category", "sub_category", "city",
       "created_date", "upload_date", "source", "facility_name", "latitude",
       "longitude", "walking_distance", "walking_minutes", "straight_distance"] := rfl
  refine ⟨hkeys, ?_, ?_, ?_, ?_, ?_⟩ <;> rw [hkeys] <;> decide

/-- C10 counterexample: the line "歴史駅" contains the timetable keyword 駅
and matches no timetable regex pattern, yet the classifier does not leave the
scores unchanged: the history/culture branch claims the line first and adds 2
to the 街の歴史・地域史 subcategory score. -/
theorem c10_history_line_scored_cex :
    timetable_keywords.any (fun k => subStr k (kw "歴史駅")) = true ∧
    patternCount (kw "歴史駅") < 2 ∧
    (rawClsState (kw "歴史駅")).c_rekishi = 2 ∧
    rawClsState (kw "歴史駅") ≠ initClsState := by
  refine ⟨by decide, by decide, by decide, by decide⟩

/-- C10 amended: a line that contains a timetable keyword, matches fewer than
two timetable patterns, *and contains no history/culture keyword* leaves the
classifier state (all main and subcategory scores and the timetable flag)
unchanged — in particular it is never fed into generic keyword scoring. -/
theorem c10_timetable_line_frame (st : ClsState) (line : Str)
    (hhist : countKw history_culture_keywords line = 0)
    (htt : timetable_keywords.any (fun k => subStr k line) = true)
    (hpat : patternCount line < 2) :
    classifyLine st line = st := by
  unfold classifyLine
  rw [hhist, htt]
  simp [Nat.not_le.mpr hpat]

theorem c10_timetable_line_frame_witness :
    (countKw history_culture_keywords (kw "駅") = 0 ∧
      timetable_keywords.any (fun k => subStr k (kw "駅")) = true ∧
      patternCount (kw "駅") < 2) ∧
    classifyLine initClsState (kw "駅") = initClsState :=
  ⟨⟨by decide, by decide, by decide⟩,
    c10_timetable_line_frame initClsState (kw "駅") (by decide) (by decide) (by decide)⟩

/-- C4 counterexample: the line-based chunker `split_text_into_chunks` does
not force-split: a single line of 5 characters with `max_size = 3` is emitted
whole, as a segment of length 5 > 3. -/
theorem c4_no_force_split_cex :
    split_text_into_chunks (kw "aaaaa") 3 = [kw "aaaaa"] ∧
      3 < (kw "aaaaa").length := by
  constructor
  · decide
  · decide

/-- C4 amended: the sentence-based chunker
(`JapaneseTextProcessor.process_text_file`) never emits a chunk whose text is
longer than `chunk_size`, force-splitting over-long sentences into
`chunk_size`-character slices; the line-based chunker
(`split_text_into_chunks`, the one the upload path calls) has no force-split
and can emit a single over-long line — or lines joined by uncounted newline
separators — as a segment exceeding `max_size`. -/
theorem c4_sentence_chunker_bound (filename : String) (cs : ℕ) (sentences : List Str)
    (hcs : 0 < cs) :
    ∀ ch ∈ process_text_file filename cs sentences, ch.text.length ≤ cs := by
  have hinv := foldl_tpStep_inv filename cs hcs sentences ⟨[], [], 0, 0⟩
    ⟨rfl, Or.inl rfl, by simp⟩
  obtain ⟨hlen, hcur, hchunks⟩ := hinv
  intro ch hch
  dsimp only [process_text_file] at hch
  split at hch
  · exact hchunks ch hch
  case isFalse hne =>
    rcases List.mem_append.mp hch with h | h
    · exact hchunks ch h
    · simp only [List.mem_singleton] at h
      subst h
      rcases hcur with hnil | ⟨s, hshape, hlenb⟩
      · exact absurd hnil hne
      · simp only [mkTPChunk]
        rw [hshape, stripStr_append_newline]
        have hb := stripStr_length_le s
        rw [hshape] at hlenb
        simp only [List.length_append, List.length_cons, List.length_nil] at hlenb
        omega

theorem c4_sentence_chunker_bound_witness :
    0 < 3 ∧ ∀ ch ∈ process_text_file "f" 3 [kw "ab。", kw "cdef。"], ch.text.length ≤ 3 :=
  ⟨by decide, c4_sentence_chunker_bound "f" 3 [kw "ab。", kw "cdef。"] (by decide)⟩

/-- C5: evaluation of the sentence-based chunker at the failing input — a
single sentence of 5 characters with `chunk_size = 2` is force-split into
three slices that all receive the *same* id `"f_chunk_0"` (the source never
increments `chunk_id` inside the force-split loop), so chunk ids are not
pairwise distinct. -/
theorem c5_duplicate_slice_ids :
    (process_text_file "f" 2 [kw "abcde"]).map TPChunk.id =
      ["f_chunk_0", "f_chunk_0", "f_chunk_0"] ∧
    ¬ ((process_text_file "f" 2 [kw "abcde"]).map TPChunk.id).Nodup := by
  constructor
  · rfl
  · decide

lemma argmax2_snd (a b : String) (x y : ℕ) :
    (argmaxFirst (a, x) [(b, y)]).2 = max x y := by
  unfold argmaxFirst
  simp only [List.foldl_cons, List.foldl_nil]
  split <;> omega

lemma classifyLine_noKeyword (st : ClsState) (l : Str) (h : lineNoKeyword l = true) :
    classifyLine st l = st := by
  unfold lineNoKeyword at h
  simp only [Bool.and_eq_true, beq_iff_eq, Bool.not_eq_true'] at h
  obtain ⟨⟨⟨⟨⟨⟨⟨⟨⟨hh, ht⟩, h1⟩, h2⟩, h3⟩, h4⟩, h5⟩, h6⟩, h7⟩, h8⟩ := h
  unfold classifyLine
  rw [hh, ht]
  simp only [Nat.lt_irrefl, if_false, Bool.false_eq_true, reduceIte]
  unfold genericStep
  rw [h1, h2, h3, h4, h5, h6, h7, h8, hh]
  simp

lemma rawClsState_noKeyword (text : Str)
    (h : (clsLines text).all lineNoKeyword = true) :
    rawClsState text = initClsState := by
  unfold rawClsState
  revert h
  generalize clsLines text = ls
  suffices H : ∀ (ls : List Str), ls.all lineNoKeyword = true →
      ∀ st : ClsState, ls.foldl classifyLine st = st by
    intro h
    exact H ls h initClsState
  intro ls
  induction ls with
  | nil => intro _ st; rfl
  | cons l rest ih =>
    intro hls st
    simp only [List.all_cons, Bool.and_eq_true] at hls
    rw [List.foldl_cons, classifyLine_noKeyword st l hls.1]
    exact ih hls.2 st

/-- C6 counterexample: on a chunk where the timetable override fired and the
history/culture subcategory score exactly ties the transport score (6 = 6),
the override is *not* retracted: the classifier returns the structural
category with confidence 0.9 instead of proceeding to the scoring branch
(whose result here would have confidence 1). -/
theorem c6_tie_keeps_override_cex :
    (rawClsState (kw "発車 上り\n発車 上り\n歴史 史跡 文化")).c_rekishi = 6 ∧
    (rawClsState (kw "発車 上り\n発車 上り\n歴史 史跡 文化")).c_kotsu = 6 ∧
    (rawClsState (kw "発車 上り\n発車 上り\n歴史 史跡 文化")).is_timetable = true ∧
    analyze_text_category (kw "発車 上り\n発車 上り\n歴史 史跡 文化") =
      ⟨"地域特性・街のプロフィール", "交通アクセス", mkRat 9 10⟩ ∧
    (scoringBranch (rawClsState (kw "発車 上り\n発車 上り\n歴史 史跡 文化"))).confidence_score = 1 ∧
    (mkRat 9 10 : ℚ) ≠ 1 := by
  have hst : rawClsState (kw "発車 上り\n発車 上り\n歴史 史跡 文化") =
      ⟨0, 12, 0, 0, 0, 0, 0, 6, 6, 0, 0, true⟩ := by decide
  refine ⟨by rw [hst], by rw [hst], by rw [hst], rfl, ?_, by decide⟩
  rw [hst]
  norm_num [scoringBranch, argmaxFirst]

/-- C6 amended: when the structural (timetable) override fired, it is
retracted only when the history/culture score *strictly* exceeds the
transport score — on an exact tie the override stands; whenever the override
still holds the classifier returns the structural category with confidence
exactly 0.9, bypassing the scoring branch. -/
theorem c6_override_retraction (text : Str)
    (hfired : (rawClsState text).is_timetable = true) :
    ((rawClsState text).c_kotsu < (rawClsState text).c_rekishi →
        analyze_text_category text = scoringBranch (rawClsState text)) ∧
    ((rawClsState text).c_rekishi ≤ (rawClsState text).c_kotsu →
        analyze_text_category text =
          ⟨"地域特性・街のプロフィール", "交通アクセス", mkRat 9 10⟩) := by
  constructor
  · intro hlt
    unfold analyze_text_category finalIsTimetable
    dsimp only
    rw [hfired]
    simp [hlt]
  · intro hle
    unfold analyze_text_category finalIsTimetable
    dsimp only
    rw [hfired]
    simp [Nat.not_lt.mpr hle]

theorem c6_override_retraction_witness :
    (rawClsState (kw "到着 下り\n歴史 史跡 文化 伝統")).is_timetable = true ∧
    (((rawClsState (kw "到着 下り\n歴史 史跡 文化 伝統")).c_kotsu <
          (rawClsState (kw "到着 下り\n歴史 史跡 文化 伝統")).c_rekishi →
        analyze_text_category (kw "到着 下り\n歴史 史跡 文化 伝統") =
          scoringBranch (rawClsState (kw "到着 下り\n歴史 史跡 文化 伝統"))) ∧
      ((rawClsState (kw "到着 下り\n歴史 史跡 文化 伝統")).c_rekishi ≤
          (rawClsState (kw "到着 下り\n歴史 史跡 文化 伝統")).c_kotsu →
        analyze_text_category (kw "到着 下り\n歴史 史跡 文化 伝統") =
          ⟨"地域特性・街のプロフィール", "交通アクセス", mkRat 9 10⟩)) :=
  ⟨by decide, c6_override_retraction (kw "到着 下り\n歴史 史跡 文化 伝統") (by decide)⟩

/-- C7 counterexample: on the chunk "発車 上り" the timetable override fires,
so the returned confidence is the fixed 0.9 even though the category-score
total is nonzero (3) and the selected category's ratio is 3/3 = 1 ≠ 0.9; the
claim's ratio clause does not hold for every chunk. -/
theorem c7_confidence_not_ratio_cex :
    analyze_text_category (kw "発車 上り") =
      ⟨"地域特性・街のプロフィール", "交通アクセス", mkRat 9 10⟩ ∧
    (rawClsState (kw "発車 上り")).bukken = 0 ∧
    (rawClsState (kw "発車 上り")).chiiki = 3 ∧
    (mkRat 9 10 : ℚ) ≠
      (((rawClsState (kw "発車 上り")).chiiki : ℕ) : ℚ) /
        ((((rawClsState (kw "発車 上り")).bukken + (rawClsState (kw "発車 上り")).chiiki : ℕ)) : ℚ) := by
  have hst : rawClsState (kw "発車 上り") = ⟨0, 3, 0, 0, 0, 0, 0, 3, 0, 0, 0, true⟩ := by
    decide
  refine ⟨rfl, by rw [hst], by rw [hst], ?_⟩
  rw [hst]
  norm_num

/-- C7 amended: the classifier's confidence always lies in [0,1]; it equals
the selected main category's score divided by the total of the main-category
scores when that total is nonzero *and the structural override did not hold*
(when the override holds the confidence is the fixed 0.9); it is 0 when the
total is zero, in particular when no keyword matches anywhere in the chunk. -/
theorem c7_confidence_bounds (text : Str) :
    (0 ≤ (analyze_text_category text).confidence_score ∧
      (analyze_text_category text).confidence_score ≤ 1) ∧
    (finalIsTimetable text = true →
      (analyze_text_category text).confidence_score = mkRat 9 10) ∧
    (finalIsTimetable text = false →
      ((rawClsState text).bukken + (rawClsState text).chiiki ≠ 0 →
        (analyze_text_category text).confidence_score =
          (((max (rawClsState text).bukken (rawClsState text).chiiki : ℕ)) : ℚ) /
            (((rawClsState text).bukken + (rawClsState text).chiiki : ℕ) : ℚ)) ∧
      ((rawClsState text).bukken + (rawClsState text).chiiki = 0 →
        (analyze_text_category text).confidence_score = 0)) ∧
    ((clsLines text).all lineNoKeyword = true →
      (analyze_text_category text).confidence_score = 0) := by
  set st := rawClsState text with hstdef
  have hconf : finalIsTimetable text = false →
      (analyze_text_category text).confidence_score =
        (if st.bukken + st.chiiki = 0 then 0
         else (((max st.bukken st.chiiki : ℕ)) : ℚ) /
           ((st.bukken + st.chiiki : ℕ) : ℚ)) := by
    intro hF
    unfold analyze_text_category
    rw [hF]
    simp only [Bool.false_eq_true, if_false, scoringBranch, argmax2_snd, ← hstdef]
  by_cases hT : finalIsTimetable text = true
  · have hc : (analyze_text_category text).confidence_score = mkRat 9 10 := by
      unfold analyze_text_category
      rw [hT]
      rfl
    refine ⟨⟨by rw [hc]; decide, by rw [hc]; decide⟩, fun _ => hc, ?_, ?_⟩
    · intro hF
      rw [hF] at hT
      exact absurd hT (by decide)
    · intro hall
      exfalso
      have hinit := rawClsState_noKeyword text hall
      unfold finalIsTimetable at hT
      rw [hinit] at hT
      exact absurd hT (by decide)
  · have hF : finalIsTimetable text = false := Bool.not_eq_true _ |>.mp hT
    have hc := hconf hF
    by_cases hz : st.bukken + st.chiiki = 0
    · rw [if_pos hz] at hc
      refine ⟨⟨by rw [hc], by rw [hc]; norm_num⟩, fun h => absurd h hT, ?_, fun _ => hc⟩
      exact fun _ => ⟨fun hnz => absurd hz hnz, fun _ => hc⟩
    · rw [if_neg hz] at hc
      have hb : ((max st.bukken st.chiiki : ℕ) : ℚ) ≤ ((st.bukken + st.chiiki : ℕ) : ℚ) := by
        exact_mod_cast Nat.max_le.mpr ⟨Nat.le_add_right _ _, Nat.le_add_left _ _⟩
      have hpos : (0 : ℚ) ≤ ((st.bukken + st.chiiki : ℕ) : ℚ) := by positivity
      refine ⟨⟨?_, ?_⟩, fun h => absurd h hT, fun _ => ⟨fun _ => hc, fun h => absurd h hz⟩, ?_⟩
      · rw [hc]
        positivity
      · rw [hc]
        exact div_le_one_of_le₀ hb hpos
      · intro hall
        exfalso
        have hinit := rawClsState_noKeyword text hall
        rw [hstdef, hinit] at hz
        exact hz rfl

theorem c7_confidence_bounds_witness :
    ((0 ≤ (analyze_text_category (kw "価格と契約")).confidence_score ∧
      (analyze_text_category (kw "価格と契約")).confidence_score ≤ 1) ∧
    (finalIsTimetable (kw "価格と契約") = true →
      (analyze_text_category (kw "価格と契約")).confidence_score = mkRat 9 10) ∧
    (finalIsTimetable (kw "価格と契約") = false →
      ((rawClsState (kw "価格と契約")).bukken + (rawClsState (kw "価格と契約")).chiiki ≠ 0 →
        (analyze_text_category (kw "価格と契約")).confidence_score =
          (((max (rawClsState (kw "価格と契約")).bukken (rawClsState (kw "価格と契約")).chiiki : ℕ)) : ℚ) /
            (((rawClsState (kw "価格と契約")).bukken + (rawClsState (kw "価格と契約")).chiiki : ℕ) : ℚ)) ∧
      ((rawClsState (kw "価格と契約")).bukken + (rawClsState (kw "価格と契約")).chiiki = 0 →
        (analyze_text_category (kw "価格と契約")).confidence_score = 0)) ∧
    ((clsLines (kw "価格と契約")).all lineNoKeyword = true →
      (analyze_text_category (kw "価格と契約")).confidence_score = 0)) :=
  c7_confidence_bounds (kw "価格と契約")

lemma toBatchesGo_nil (bs n : ℕ) : toBatchesGo bs n [] = [] := by
  cases n <;> rfl

lemma toBatches_single (bs : ℕ) (b : List PChunk) (hne : b ≠ []) (hlen : b.length ≤ bs) :
    toBatches bs b = [b] := by
  match b, hne with
  | c :: rest, _ =>
    simp only [toBatches, List.length_cons, toBatchesGo]
    simp only [List.length_cons] at hlen
    rw [List.take_of_length_le (by omega), List.drop_eq_nil_of_le (by omega),
      toBatchesGo_nil]

lemma embedBatch_failOracle (b : List PChunk) :
    ∀ counts : String → ℕ, ∃ cts, embedBatch failOracle b counts = ([], b, cts) := by
  induction b with
  | nil => exact fun counts => ⟨counts, rfl⟩
  | cons c rest ih =>
    intro counts
    obtain ⟨cts, hcts⟩ := ih (Function.update counts c.id (counts c.id + 1))
    refine ⟨cts, ?_⟩
    simp only [embedBatch, failOracle]
    rw [hcts]

lemma uploadBatches_failOracle_none (bs : ℕ) (b : List PChunk)
    (hne : b ≠ []) (hlen : b.length ≤ bs) :
    ∀ (fuel : ℕ) (counts : String → ℕ),
      uploadBatches failOracle bs fuel [b] counts = none := by
  have hbe : b.isEmpty = false := List.isEmpty_eq_false.mpr hne
  intro fuel
  induction fuel with
  | zero =>
    intro counts
    obtain ⟨cts, hemb⟩ := embedBatch_failOracle b counts
    simp only [uploadBatches, uploadGo]
    rw [hemb]
    simp [hbe]
  | succ f ih =>
    intro counts
    obtain ⟨cts, hemb⟩ := embedBatch_failOracle b counts
    simp only [uploadBatches, uploadGo]
    rw [hemb]
    simp only [hbe, Bool.false_eq_true, if_false]
    rw [toBatches_single bs b hne hlen, ih cts]

/-- C2 counterexample: with an embedding service that fails every attempt,
`upload_chunks` on a single chunk is still running after 2 nested retry
levels — under the claimed semantics (one bounded retry pass and then
termination) a budget of 2 recursion levels would have sufficed. -/
theorem c2_retry_not_bounded_cex :
    upload_chunks failOracle 100 2 [badChunk] = none := by
  show (uploadBatches failOracle 100 2 (toBatches 100 [badChunk]) (fun _ => 0)).map
      Prod.fst = none
  rw [show toBatches 100 [badChunk] = [[badChunk]] from rfl,
    uploadBatches_failOracle_none 100 [badChunk] (by decide) (by decide) 2 (fun _ => 0)]
  rfl

/-- C2 amended: each batch's failed-embedding set is re-submitted through
`upload_chunks` recursively and immediately after that batch's upsert (not
after all batches), with no depth bound: when a chunk's embedding fails on
every attempt the upload never completes, for any recursion budget.  The
second conjunct shows the per-batch timing: with batch size 1 and chunk "a"
failing only its first attempt, "a" is upserted by the in-batch retry
*before* the later batch containing "b". -/
theorem c2_per_batch_unbounded_retry :
    (∀ fuel : ℕ, upload_chunks failOracle 100 fuel [badChunk] = none) ∧
    uploadedIds aOnceFailOracle 1 5 [chunkA, chunkB] = some ["a", "b"] := by
  constructor
  · intro fuel
    show (uploadBatches failOracle 100 fuel (toBatches 100 [badChunk]) (fun _ => 0)).map
        Prod.fst = none
    rw [show toBatches 100 [badChunk] = [[badChunk]] from rfl,
      uploadBatches_failOracle_none 100 [badChunk] (by decide) (by decide) fuel (fun _ => 0)]
    rfl
  · rfl

/-- C3 counterexample: a chunk whose embedding fails in both the original
pass and the first retry pass is *not* dropped: the second retry pass embeds
it (third attempt) and upserts it. `upload_chunks` returns `None` in the
source, so no list of permanently-failed ids is ever reported either. -/
theorem c3_failed_twice_not_dropped_cex :
    uploadedIds thirdTryOracle 100 5 [badChunk] = some ["bad"] := by
  rfl

/-- C3 amended: a chunk whose embedding keeps failing is never dropped and
never reported: it is re-submitted indefinitely — a chunk failing its first
two attempts is upserted by the third — and when some chunk fails on every
attempt the upload never completes (so it cannot return any failure report;
its only normal return value is `None`, which carries no report). -/
theorem c3_no_drop_no_report :
    uploadedIds thirdTryOracle 100 5 [badChunk] = some ["bad"] ∧
    (∀ fuel : ℕ, upload_chunks failOracle 100 fuel [badChunk, chunkB] = none) := by
  constructor
  · rfl
  · intro fuel
    show (uploadBatches failOracle 100 fuel (toBatches 100 [badChunk, chunkB])
        (fun _ => 0)).map Prod.fst = none
    rw [show toBatches 100 [badChunk, chunkB] = [[badChunk, chunkB]] from rfl,
      uploadBatches_failOracle_none 100 [badChunk, chunkB] (by decide) (by decide)
        fuel (fun _ => 0)]
    rfl

end PineChat
